import Mathlib

/-!
Verification of the Zeeky Kernel Service (src/services/kernel/main.py).

The service is a FastAPI application with an in-memory plugin registry.
We embed it shallowly: the Python `dict` `plugins_registry` becomes an
association list that keeps insertion order (Python 3.7+ dict semantics),
the pure helper functions `classify_intent`, `extract_entities`,
`route_to_plugin` and `generate_response` become Lean functions, and the
endpoint handlers become explicit state-passing functions on the registry.
Floating-point literals that are only stored and never computed with
(the placeholder confidence 0.8, clock readings) are modelled as rationals.
-/

namespace Zeeky

/-- Boolean test that `pre` is a leading segment of the second list,
comparing characters one by one. -/
def charsLead : List Char → List Char → Bool
  | [], _ => true
  | _ :: _, [] => false
  | a :: as, b :: bs => a = b && charsLead as bs

/-- Python substring containment `needle in hay`: `needle` occurs as a
contiguous run somewhere in `hay`. -/
def charsContains (needle : List Char) : List Char → Bool
  | [] => needle.isEmpty
  | c :: rest => charsLead needle (c :: rest) || charsContains needle rest

/-- Python substring containment `word in text` on strings. -/
def strIn (word text : String) : Bool :=
  charsContains word.data text.data

/-- Python `str.lower()`, character-wise lower-casing (the keyword
vocabularies are ASCII, where Python and `Char.toLower` agree). -/
def lowerStr (s : String) : String :=
  String.mk (s.data.map Char.toLower)

/-- Embedding of `any(word in text_lower for word in ws)`. -/
def anyIn (ws : List String) (text_lower : String) : Bool :=
  ws.any (fun w => strIn w text_lower)

/-- Function `classify_intent` from main.py lines 141-156: lower-case the text and
return the first of six fixed categories whose keyword list has a member
occurring as a substring, else "general_query". -/
def classify_intent (text : String) : String :=
  let text_lower := (lowerStr text)
  if anyIn ["play", "music", "song", "album"] text_lower then
    "music_control"
  else if anyIn ["schedule", "meeting", "calendar", "appointment"] text_lower then
    "calendar_management"
  else if anyIn ["note", "remember", "write", "save"] text_lower then
    "note_taking"
  else if anyIn ["weather", "temperature", "forecast"] text_lower then
    "weather_query"
  else if anyIn ["news", "headlines", "update"] text_lower then
    "news_query"
  else
    "general_query"

/-- The six categories in check order with their keyword lists, as the
spec states them. -/
def intentTable : List (String × List String) :=
  [("music_control", ["play", "music", "song", "album"]),
   ("calendar_management", ["schedule", "meeting", "calendar", "appointment"]),
   ("note_taking", ["note", "remember", "write", "save"]),
   ("weather_query", ["weather", "temperature", "forecast"]),
   ("news_query", ["news", "headlines", "update"])]

/-- Classification as the spec words it: the first category in table
order with a keyword occurring as a substring of the lower-cased text
wins; if none matches, "general_query". -/
def classify_spec (text : String) : String :=
  match intentTable.find? (fun p => anyIn p.2 (lowerStr text)) with
  | some p => p.1
  | none => "general_query"

/-- An entity record produced by `extract_entities`; the Python dict
`{"type": ..., "value": ..., "start": ..., "end": ...}` ("end" is a Lean
keyword, so the field is `endIdx`). -/
structure Entity where
  type : String
  value : String
  start : Nat
  endIdx : Nat
deriving DecidableEq

/-- Helper for Python `str.split()`: walk the characters, accumulating
the current token in reverse; whitespace closes the token, and empty
tokens are dropped (so runs of whitespace and leading or trailing
whitespace produce nothing). -/
def splitWsAux : List Char → List Char → List (List Char)
  | [], acc => if acc.isEmpty then [] else [acc.reverse]
  | c :: rest, acc =>
    if c.isWhitespace then
      if acc.isEmpty then splitWsAux rest [] else acc.reverse :: splitWsAux rest []
    else splitWsAux rest (c :: acc)

/-- Python `text.split()` with no argument: split on runs of
whitespace, dropping empty tokens. -/
def pySplit (s : String) : List String :=
  (splitWsAux s.data []).map String.mk

/-- The media-type vocabulary of `extract_entities`. -/
def mediaWords : List String := ["music", "song", "album"]

/-- The event-type vocabulary of `extract_entities`. -/
def eventWords : List String := ["meeting", "appointment"]

/-- Function `extract_entities` from main.py lines 158-170: split on whitespace,
then for each token (with its index) emit a media_type entity when the
lowered token is exactly one of music/song/album, an event_type entity
when it is exactly meeting/appointment, and nothing otherwise. -/
def extract_entities (text : String) : List Entity :=
  let words := pySplit text
  words.enum.filterMap fun iw =>
    if lowerStr iw.2 ∈ mediaWords then
      some ⟨"media_type", iw.2, iw.1, iw.1 + 1⟩
    else if lowerStr iw.2 ∈ eventWords then
      some ⟨"event_type", iw.2, iw.1, iw.1 + 1⟩
    else none

/-- Extraction as the spec words it: walk the tokens in order carrying
the token index, emitting exactly one entity for each token whose lowered
whole form is in one of the two vocabularies. -/
def extractSpecAux (i : Nat) : List String → List Entity
  | [] => []
  | w :: ws =>
    if lowerStr w ∈ mediaWords then
      ⟨"media_type", w, i, i + 1⟩ :: extractSpecAux (i + 1) ws
    else if lowerStr w ∈ eventWords then
      ⟨"event_type", w, i, i + 1⟩ :: extractSpecAux (i + 1) ws
    else extractSpecAux (i + 1) ws

/-- Entity extraction as the spec words it, over the whitespace tokens. -/
def extract_spec (text : String) : List Entity :=
  extractSpecAux 0 (pySplit text)

/-- The stored plugin record (Pydantic model `PluginInfo`): note there is
no endpoint field. -/
structure PluginInfo where
  id : String
  name : String
  version : String
  description : String
  capabilities : List String
  status : String
deriving DecidableEq

/-- The registration request body (Pydantic model `PluginRegistration`). -/
structure PluginRegistration where
  id : String
  name : String
  version : String
  description : String
  capabilities : List String
  endpoint : String
deriving DecidableEq

/-- The in-memory `plugins_registry : Dict[str, PluginInfo]`, modelled as
an association list in insertion order (Python 3.7+ dicts iterate in
insertion order). -/
abbrev Registry := List (String × PluginInfo)

/-- Dict membership `k in d`. -/
def hasKey (reg : Registry) (k : String) : Bool :=
  reg.any fun p => p.1 == k

/-- Python dict assignment `d[k] = v`: an existing key keeps its position
and gets the new value; a new key is appended at the end. -/
def dictInsert (reg : Registry) (k : String) (v : PluginInfo) : Registry :=
  if hasKey reg k then
    reg.map fun p => if p.1 == k then (k, v) else p
  else
    reg ++ [(k, v)]

/-- Function `register_plugin` from main.py lines 119-135: build a `PluginInfo`
from the request with status forced to "active" (the endpoint field is
not carried over), store it under the request id, and return it. -/
def register_plugin (reg : Registry) (plugin : PluginRegistration) :
    Registry × PluginInfo :=
  let plugin_info : PluginInfo :=
    { id := plugin.id
      name := plugin.name
      version := plugin.version
      description := plugin.description
      capabilities := plugin.capabilities
      status := "active" }
  (dictInsert reg plugin.id plugin_info, plugin_info)

/-- Function `route_to_plugin` from main.py lines 172-177: first registry entry
whose capabilities list contains the intent (exact string equality),
else absence. The entities argument is accepted and unused, as in the
source. -/
def route_to_plugin (intent : String) (entities : List Entity)
    (reg : Registry) : Option String :=
  (reg.find? fun p => p.2.capabilities.contains intent).map fun p => p.1

/-- Function `generate_response` from main.py lines 179-184. The Python
guard `if plugin_id:` is a truthiness test, false for both None and the
empty string, so only a non-empty routed id takes the Processing branch. -/
def generate_response (intent : String) (entities : List Entity)
    (plugin_id : Option String) : String :=
  match plugin_id with
  | some pid =>
    if pid = "" then
      "I understand you want to " ++ intent ++ ". Let me help you with that."
    else
      "Processing " ++ intent ++ " using plugin " ++ pid
  | none => "I understand you want to " ++ intent ++ ". Let me help you with that."

/-- The `POST /intent` request body (`IntentRequest`): context is an
arbitrary string-keyed mapping in Python, modelled as an optional
association list. -/
structure IntentRequest where
  text : String
  context : Option (List (String × String)) := none
  user_id : Option String := none
  session_id : Option String := none
deriving DecidableEq

/-- The `POST /intent` response body (`IntentResponse`); confidence is a
Python float used only as the stored literal 0.8, modelled exactly as a
rational. -/
structure IntentResponse where
  intent : String
  confidence : ℚ
  entities : List Entity
  response : String
  plugin_id : Option String := none
deriving DecidableEq

/-- Function `process_intent` from main.py lines 86-112 as a state-passing handler:
classify, extract, route against the registry, generate the response
text, and answer with the constant confidence 0.8. The pipeline only
reads the registry, so the returned state is the input state. -/
def process_intent (req : IntentRequest) (reg : Registry) :
    Registry × IntentResponse :=
  let intent := classify_intent req.text
  let entities := extract_entities req.text
  let plugin_id := route_to_plugin intent entities reg
  let response := generate_response intent entities plugin_id
  (reg,
   { intent := intent
     confidence := 0.8
     entities := entities
     response := response
     plugin_id := plugin_id })

/-- The `GET /health` response body; timestamps are clock readings in
seconds, modelled as rationals. -/
structure HealthResponse where
  status : String
  timestamp : ℚ
  version : String
  uptime : ℚ
deriving DecidableEq

/-- Function `health_check` from main.py lines 75-84: uptime is the current clock
reading minus the process start reading. -/
def health_check (start now : ℚ) : HealthResponse :=
  { status := "healthy"
    timestamp := now
    version := "1.0.0"
    uptime := now - start }

/-- A sample registration request declaring the music_control capability. -/
def pEx : PluginRegistration :=
  { id := "P1"
    name := "Music"
    version := "1.0"
    description := "demo"
    capabilities := ["music_control"]
    endpoint := "http://localhost:9001" }

/-- A second registration under the same id with different metadata. -/
def qEx : PluginRegistration :=
  { id := "P1"
    name := "MusicPlus"
    version := "2.0"
    description := "demo2"
    capabilities := ["music_control", "news_query"]
    endpoint := "http://localhost:9002" }

/-- Like `pEx` but with a different endpoint only. -/
def rEx : PluginRegistration :=
  { pEx with endpoint := "http://localhost:9009" }

/-- The stored record for `pEx`. -/
def infoEx : PluginInfo :=
  { id := "P1"
    name := "Music"
    version := "1.0"
    description := "demo"
    capabilities := ["music_control"]
    status := "active" }

/-- A stored plugin record registered under the empty-string id (pydantic
accepts an empty id, so this registry state is reachable through the
registration endpoint). -/
def infoWEx : PluginInfo :=
  { id := ""
    name := "Weather"
    version := "1.0"
    description := "demo"
    capabilities := ["weather_query"]
    status := "active" }

end Zeeky

namespace Zeeky

/-- Claim C1: `classify_intent` lower-cases its input and returns the first
of the six fixed categories, in the order music_control,
calendar_management, note_taking, weather_query, news_query,
general_query, whose keyword list contains a substring of the lowered
text, with "general_query" as the fallback; the earliest category wins
when several match, e.g. "remember to play music" gives "music_control". -/
theorem classify_intent_correct :
    (∀ text : String, classify_intent text = classify_spec text) ∧
    classify_intent "remember to play music" = "music_control" := by
  constructor
  · intro text
    unfold classify_intent classify_spec intentTable
    cases h1 : anyIn ["play", "music", "song", "album"] (lowerStr text) <;>
      cases h2 : anyIn ["schedule", "meeting", "calendar", "appointment"] (lowerStr text) <;>
      cases h3 : anyIn ["note", "remember", "write", "save"] (lowerStr text) <;>
      cases h4 : anyIn ["weather", "temperature", "forecast"] (lowerStr text) <;>
      cases h5 : anyIn ["news", "headlines", "update"] (lowerStr text) <;>
      simp [List.find?, h1, h2, h3, h4, h5]
  · decide

/-- Filtering the extraction body over tokens enumerated from any base
index equals the index-carrying spec recursion. -/
theorem extract_enumFrom_eq (ws : List String) :
    ∀ i : Nat, (List.enumFrom i ws).filterMap (fun iw =>
      if lowerStr iw.2 ∈ mediaWords then
        some (⟨"media_type", iw.2, iw.1, iw.1 + 1⟩ : Entity)
      else if lowerStr iw.2 ∈ eventWords then
        some ⟨"event_type", iw.2, iw.1, iw.1 + 1⟩
      else none) = extractSpecAux i ws := by
  induction ws with
  | nil => intro i; simp [extractSpecAux]
  | cons w ws ih =>
    intro i
    by_cases hm : lowerStr w ∈ mediaWords
    · simp [List.enumFrom, List.filterMap_cons, extractSpecAux, hm, ih]
    · by_cases he : lowerStr w ∈ eventWords <;>
        simp [List.enumFrom, List.filterMap_cons, extractSpecAux, hm, he, ih]

/-- Claim C2: `extract_entities` splits on whitespace and returns, in
token order, one entity per token whose lowered whole form is in the
media vocabulary (type media_type) or the event vocabulary (type
event_type), with value the original token, start the token index and
end start+1; other tokens produce nothing. On "play the music now" it
returns exactly the media_type entity for "music" at index 2. -/
theorem extract_entities_correct :
    (∀ text : String, extract_entities text = extract_spec text) ∧
    extract_entities "play the music now" =
      [⟨"media_type", "music", 2, 3⟩] := by
  refine ⟨fun text => ?_, by decide⟩
  simp only [extract_entities, extract_spec, List.enum]
  exact extract_enumFrom_eq (pySplit text) 0

/-- The freshly assigned pair is in the dict after assignment. -/
theorem mem_dictInsert_self (reg : Registry) (k : String) (v : PluginInfo) :
    (k, v) ∈ dictInsert reg k v := by
  unfold dictInsert
  split
  · rename_i h
    unfold hasKey at h
    rw [List.any_eq_true] at h
    obtain ⟨p, hp, hpk⟩ := h
    exact List.mem_map.mpr ⟨p, hp, by simp [hpk]⟩
  · exact List.mem_append.mpr (Or.inr (by simp))

/-- Every pair in the dict after assignment is an old pair or the
assigned one. -/
theorem mem_dictInsert_cases {reg : Registry} {k : String} {v : PluginInfo}
    {x : String × PluginInfo} (hx : x ∈ dictInsert reg k v) :
    x ∈ reg ∨ x = (k, v) := by
  unfold dictInsert at hx
  split at hx
  · obtain ⟨y, hy, hyx⟩ := List.mem_map.mp hx
    by_cases hk : y.1 == k
    · right; rw [if_pos hk] at hyx; exact hyx.symm
    · left; rw [if_neg hk] at hyx; exact hyx ▸ hy
  · rcases List.mem_append.mp hx with h | h
    · exact Or.inl h
    · exact Or.inr (by simpa using h)

/-- In the overwrite branch of assignment, the first pair keyed by `k` is
the assigned one. -/
theorem find?_overwrite (k : String) (v : PluginInfo) :
    ∀ reg : Registry, hasKey reg k = true →
      ((reg.map fun p => if p.1 == k then (k, v) else p).find?
        fun p => p.1 == k) = some (k, v) := by
  intro reg
  induction reg with
  | nil => intro h; simp [hasKey] at h
  | cons p rest ih =>
    intro h
    rw [List.map_cons]
    by_cases hk : (p.1 == k) = true
    · rw [if_pos hk, List.find?_cons_of_pos (p := fun q : String × PluginInfo => q.1 == k) _ (by simp)]
    · have h' : hasKey rest k = true := by
        unfold hasKey at h ⊢
        rcases (List.any_eq_true).mp h with ⟨q, hq, hqk⟩
        rcases List.mem_cons.mp hq with rfl | hq'
        · exact absurd hqk hk
        · exact (List.any_eq_true).mpr ⟨q, hq', hqk⟩
      rw [if_neg hk, List.find?_cons_of_neg (p := fun q : String × PluginInfo => q.1 == k) _ hk]
      exact ih h'

/-- After `d[k] = v`, looking up the first pair keyed by `k` yields
exactly `(k, v)`. -/
theorem lookup_dictInsert_self (reg : Registry) (k : String) (v : PluginInfo) :
    ((dictInsert reg k v).find? fun p => p.1 == k) = some (k, v) := by
  unfold dictInsert
  split
  · rename_i h
    exact find?_overwrite k v reg h
  · rename_i h
    rw [List.find?_append]
    have hnone : (reg.find? fun p => p.1 == k) = none := by
      rw [List.find?_eq_none]
      intro x hx hxk
      exact h (by unfold hasKey; exact (List.any_eq_true).mpr ⟨x, hx, hxk⟩)
    rw [hnone, List.find?_cons_of_pos (p := fun q : String × PluginInfo => q.1 == k) _ (by simp)]
    rfl

/-- The key is present after assignment. -/
theorem hasKey_dictInsert (reg : Registry) (k : String) (v : PluginInfo) :
    hasKey (dictInsert reg k v) k = true := by
  unfold hasKey
  exact (List.any_eq_true).mpr ⟨(k, v), mem_dictInsert_self reg k v, by simp⟩

/-- Assigning to a key already present keeps the dict size. -/
theorem length_dictInsert_of_hasKey {reg : Registry} {k : String}
    (v : PluginInfo) (h : hasKey reg k = true) :
    (dictInsert reg k v).length = reg.length := by
  unfold dictInsert
  rw [if_pos h, List.length_map]

/-- Assignment keeps the key list duplicate-free. -/
theorem keys_dictInsert_nodup {reg : Registry} (k : String) (v : PluginInfo)
    (hnd : (reg.map Prod.fst).Nodup) :
    ((dictInsert reg k v).map Prod.fst).Nodup := by
  unfold dictInsert
  split
  · have : ((reg.map fun p => if p.1 == k then (k, v) else p).map Prod.fst) =
        reg.map Prod.fst := by
      rw [List.map_map]
      refine List.map_congr_left fun p _ => ?_
      simp only [Function.comp_apply]
      by_cases hk : (p.1 == k) = true
      · rw [if_pos hk]; exact (eq_of_beq hk).symm
      · rw [if_neg hk]
    rw [this]; exact hnd
  · rename_i h
    rw [List.map_append, List.nodup_append]
    refine ⟨hnd, by simp, ?_⟩
    intro a ha hb
    have hak : a = k := by simpa using hb
    obtain ⟨q, hq, hqa⟩ := List.mem_map.mp ha
    exact h (by
      unfold hasKey
      exact (List.any_eq_true).mpr ⟨q, hq, by simp [hqa, hak]⟩)

/-- In the overwrite branch, with duplicate-free keys, the pairs keyed by
`k` after assignment are exactly the assigned one. -/
theorem filter_overwrite (k : String) (v : PluginInfo) :
    ∀ reg : Registry, (reg.map Prod.fst).Nodup → hasKey reg k = true →
      ((reg.map fun p => if p.1 == k then (k, v) else p).filter
        fun p => p.1 == k) = [(k, v)] := by
  intro reg
  induction reg with
  | nil => intro _ h; simp [hasKey] at h
  | cons p rest ih =>
    intro hnd h
    rw [List.map_cons, List.nodup_cons] at hnd
    obtain ⟨hp, hnd'⟩ := hnd
    rw [List.map_cons]
    by_cases hk : (p.1 == k) = true
    · rw [if_pos hk,
        List.filter_cons_of_pos (p := fun q : String × PluginInfo => q.1 == k) (by simp)]
      have hrest : ((rest.map fun q => if q.1 == k then (k, v) else q).filter
          fun q => q.1 == k) = [] := by
        rw [List.filter_eq_nil_iff]
        intro x hx
        obtain ⟨q, hq, hqx⟩ := List.mem_map.mp hx
        have hqk : ¬ (q.1 == k) = true := by
          intro hc
          have hpq : p.1 ∈ List.map Prod.fst rest := by
            rw [(eq_of_beq hk).trans (eq_of_beq hc).symm]
            exact List.mem_map.mpr ⟨q, hq, rfl⟩
          exact hp hpq
        rw [if_neg hqk] at hqx
        rw [← hqx]
        exact hqk
      rw [hrest]
    · have h' : hasKey rest k = true := by
        unfold hasKey at h ⊢
        rcases (List.any_eq_true).mp h with ⟨q, hq, hqk⟩
        rcases List.mem_cons.mp hq with rfl | hq'
        · exact absurd hqk hk
        · exact (List.any_eq_true).mpr ⟨q, hq', hqk⟩
      rw [if_neg hk, List.filter_cons_of_neg (p := fun q : String × PluginInfo => q.1 == k) hk]
      exact ih hnd' h'

/-- Claim C3: after registering a plugin with id "P1" whose capabilities
contain "music_control", routing that intent yields a plugin id, which is
"P1" or some already-registered plugin declaring the capability; and for
an intent no registered plugin declares, routing yields absence. -/
theorem route_round_trip :
    (∀ (reg : Registry) (p : PluginRegistration) (ents : List Entity),
      p.id = "P1" → "music_control" ∈ p.capabilities →
      ∃ pid, route_to_plugin "music_control" ents (register_plugin reg p).1 =
          some pid ∧
        (pid = "P1" ∨
          ∃ info, (pid, info) ∈ reg ∧ "music_control" ∈ info.capabilities)) ∧
    (∀ (intent : String) (ents : List Entity) (reg : Registry),
      (∀ pid info, (pid, info) ∈ reg → intent ∉ info.capabilities) →
      route_to_plugin intent ents reg = none) := by
  constructor
  · intro reg p ents hid hcap
    obtain ⟨x, hx⟩ : ∃ x, ((dictInsert reg p.id
        { id := p.id, name := p.name, version := p.version,
          description := p.description, capabilities := p.capabilities,
          status := "active" }).find?
          fun q => q.2.capabilities.contains "music_control") = some x := by
      apply Option.isSome_iff_exists.mp
      apply List.find?_isSome.mpr
      exact ⟨(p.id, _), mem_dictInsert_self _ _ _, by simpa using hcap⟩
    obtain ⟨k, xinfo⟩ := x
    refine ⟨k, ?_, ?_⟩
    · simp only [route_to_plugin, register_plugin]
      rw [hx]
      rfl
    · rcases mem_dictInsert_cases (List.mem_of_find?_eq_some hx) with hmem | heq
      · right
        refine ⟨xinfo, hmem, ?_⟩
        simpa using List.find?_some hx
      · left
        rw [show k = p.id from congrArg Prod.fst heq]
        exact hid
  · intro intent ents reg hnone
    unfold route_to_plugin
    rw [Option.map_eq_none', List.find?_eq_none]
    rintro ⟨pid, info⟩ hx hpred
    exact hnone pid info hx (by simpa using hpred)

/-- Witness for C3 at a concrete registration and empty registry. -/
theorem route_round_trip_witness :
    (∃ pid, route_to_plugin "music_control" []
        (register_plugin [] pEx).1 = some pid ∧
      (pid = "P1" ∨
        ∃ info, (pid, info) ∈ ([] : Registry) ∧
          "music_control" ∈ info.capabilities)) ∧
    route_to_plugin "weather_query" [] [] = none := by
  constructor
  · exact route_round_trip.1 [] pEx [] rfl (by simp [pEx])
  · exact route_round_trip.2 "weather_query" [] [] (by simp)

/-- Claim C4: registering twice under the same id (here with
duplicate-free keys, the invariant of a registry built by registration)
leaves exactly one entry under that id, carrying the second
metadata of the second registration, and does not grow the registry. -/
theorem register_plugin_last_write_wins (reg : Registry)
    (p q : PluginRegistration) (hnd : (reg.map Prod.fst).Nodup)
    (hid : q.id = p.id) :
    ((register_plugin (register_plugin reg p).1 q).1.filter
        fun e => e.1 == q.id) =
      [(q.id, (register_plugin (register_plugin reg p).1 q).2)] ∧
    ((register_plugin (register_plugin reg p).1 q).1.find?
        fun e => e.1 == q.id) =
      some (q.id, (register_plugin (register_plugin reg p).1 q).2) ∧
    (register_plugin (register_plugin reg p).1 q).1.length =
      (register_plugin reg p).1.length ∧
    (register_plugin (register_plugin reg p).1 q).2 =
      { id := q.id, name := q.name, version := q.version,
        description := q.description, capabilities := q.capabilities,
        status := "active" } := by
  have hnd1 : ((register_plugin reg p).1.map Prod.fst).Nodup :=
    keys_dictInsert_nodup _ _ hnd
  have hk1 : hasKey (register_plugin reg p).1 q.id = true := by
    rw [hid]
    exact hasKey_dictInsert reg p.id _
  refine ⟨?_, lookup_dictInsert_self _ _ _,
    length_dictInsert_of_hasKey _ hk1, rfl⟩
  set reg1 := (register_plugin reg p).1 with hreg1
  set v := (register_plugin reg1 q).2 with hv
  have e : (register_plugin reg1 q).1 = dictInsert reg1 q.id v := rfl
  rw [e]
  unfold dictInsert
  rw [if_pos hk1]
  exact filter_overwrite q.id v reg1 hnd1 hk1

/-- Witness for C4: registering `pEx` then `qEx` (same id "P1") on the
empty registry. -/
theorem register_plugin_last_write_wins_witness :
    (([] : Registry).map Prod.fst).Nodup ∧ qEx.id = pEx.id ∧
    (((register_plugin (register_plugin [] pEx).1 qEx).1.filter
        fun e => e.1 == qEx.id) =
      [(qEx.id, (register_plugin (register_plugin [] pEx).1 qEx).2)] ∧
    ((register_plugin (register_plugin [] pEx).1 qEx).1.find?
        fun e => e.1 == qEx.id) =
      some (qEx.id, (register_plugin (register_plugin [] pEx).1 qEx).2) ∧
    (register_plugin (register_plugin [] pEx).1 qEx).1.length =
      (register_plugin [] pEx).1.length ∧
    (register_plugin (register_plugin [] pEx).1 qEx).2 =
      { id := qEx.id, name := qEx.name, version := qEx.version,
        description := qEx.description, capabilities := qEx.capabilities,
        status := "active" }) :=
  ⟨by simp, rfl, register_plugin_last_write_wins [] pEx qEx (by simp) rfl⟩

/-- Claim C5: registration is total (the 500 branch is unreachable in the
embedding), stores under the request id a record with status forced to
"active" and the submitted id, name, version, description and
capabilities, returns exactly the stored record, and discards the
endpoint: a request equal on the five stored fields yields the same
record whatever its endpoint. -/
theorem register_plugin_total_spec (reg : Registry) (p q : PluginRegistration)
    (h1 : q.id = p.id) (h2 : q.name = p.name) (h3 : q.version = p.version)
    (h4 : q.description = p.description) (h5 : q.capabilities = p.capabilities) :
    (register_plugin reg p).2.status = "active" ∧
    (register_plugin reg p).2.id = p.id ∧
    (register_plugin reg p).2.name = p.name ∧
    (register_plugin reg p).2.version = p.version ∧
    (register_plugin reg p).2.description = p.description ∧
    (register_plugin reg p).2.capabilities = p.capabilities ∧
    ((register_plugin reg p).1.find? fun e => e.1 == p.id) =
      some (p.id, (register_plugin reg p).2) ∧
    (register_plugin reg q).2 = (register_plugin reg p).2 := by
  refine ⟨rfl, rfl, rfl, rfl, rfl, rfl, lookup_dictInsert_self reg p.id _, ?_⟩
  simp only [register_plugin, h1, h2, h3, h4, h5]

/-- Witness for C5: `rEx` differs from `pEx` only in its endpoint. -/
theorem register_plugin_total_spec_witness :
    rEx.id = pEx.id ∧ rEx.name = pEx.name ∧ rEx.version = pEx.version ∧
    rEx.description = pEx.description ∧ rEx.capabilities = pEx.capabilities ∧
    ((register_plugin [] pEx).2.status = "active" ∧
    (register_plugin [] pEx).2.id = pEx.id ∧
    (register_plugin [] pEx).2.name = pEx.name ∧
    (register_plugin [] pEx).2.version = pEx.version ∧
    (register_plugin [] pEx).2.description = pEx.description ∧
    (register_plugin [] pEx).2.capabilities = pEx.capabilities ∧
    ((register_plugin [] pEx).1.find? fun e => e.1 == pEx.id) =
      some (pEx.id, (register_plugin [] pEx).2) ∧
    (register_plugin [] rEx).2 = (register_plugin [] pEx).2) :=
  ⟨rfl, rfl, rfl, rfl, rfl,
    register_plugin_total_spec [] pEx rEx rfl rfl rfl rfl rfl⟩

/-- Counterexample to C6 as stated: with a plugin registered under the
empty-string id and capability weather_query, routing produces the
plugin id some "", yet the program answers with the fallback sentence,
not the "Processing ... using plugin ..." template, because the Python
guard `if plugin_id:` is falsy on the empty string. -/
theorem process_intent_response_counterexample :
    (process_intent { text := "check the weather" } [("", infoWEx)]).2.plugin_id =
      some "" ∧
    (process_intent { text := "check the weather" } [("", infoWEx)]).2.response =
      "I understand you want to weather_query. Let me help you with that." ∧
    (process_intent { text := "check the weather" } [("", infoWEx)]).2.response ≠
      "Processing " ++
        (process_intent { text := "check the weather" } [("", infoWEx)]).2.intent ++
        " using plugin " ++ "" :=
  ⟨by decide, by decide, by decide⟩

/-- Claim C6, amended: every intent response carries confidence 0.8; the
response is "Processing {intent} using plugin {plugin_id}" when routing
produced a non-empty plugin id, and the fallback sentence when routing
produced no plugin id or the empty-string id (Python truthiness of
`if plugin_id:`); on the sample weather request with an empty registry,
the response is exactly the fallback for weather_query. -/
theorem process_intent_response_correct :
    (∀ (req : IntentRequest) (reg : Registry),
      (process_intent req reg).2.confidence = 0.8 ∧
      (∀ pid, (process_intent req reg).2.plugin_id = some pid → pid ≠ "" →
        (process_intent req reg).2.response =
          "Processing " ++ (process_intent req reg).2.intent ++
            " using plugin " ++ pid) ∧
      (((process_intent req reg).2.plugin_id = none ∨
          (process_intent req reg).2.plugin_id = some "") →
        (process_intent req reg).2.response =
          "I understand you want to " ++ (process_intent req reg).2.intent ++
            ". Let me help you with that.")) ∧
    process_intent { text := "What\x27s the weather tomorrow?" } [] =
      ([], { intent := "weather_query", confidence := 0.8, entities := [],
             response :=
               "I understand you want to weather_query. Let me help you with that.",
             plugin_id := none }) := by
  refine ⟨fun req reg => ⟨rfl, ?_, ?_⟩, by rfl⟩
  · intro pid hpid hne
    have e : (process_intent req reg).2.response =
        generate_response (classify_intent req.text) (extract_entities req.text)
          ((process_intent req reg).2.plugin_id) := rfl
    rw [e, hpid]
    show (if pid = "" then _ else _) = _
    rw [if_neg hne]
    rfl
  · intro hpid
    have e : (process_intent req reg).2.response =
        generate_response (classify_intent req.text) (extract_entities req.text)
          ((process_intent req reg).2.plugin_id) := rfl
    rcases hpid with h | h <;> rw [e, h] <;> rfl

/-- Witness for the amended C6 at a request routed to a plugin with the
non-empty id "P1". -/
theorem process_intent_response_correct_witness :
    (process_intent { text := "play some music" } [("P1", infoEx)]).2.plugin_id =
      some "P1" ∧
    ("P1" : String) ≠ "" ∧
    (process_intent { text := "play some music" } [("P1", infoEx)]).2.response =
      "Processing " ++
        (process_intent { text := "play some music" } [("P1", infoEx)]).2.intent ++
        " using plugin " ++ "P1" :=
  ⟨by decide, by decide,
    (process_intent_response_correct.1 { text := "play some music" }
      [("P1", infoEx)]).2.1 "P1" (by decide) (by decide)⟩

/-- Claim C7: the intent pipeline is read-only on the registry: the state
returned by the handler is the input state, for every request. -/
theorem process_intent_registry_frame :
    ∀ (req : IntentRequest) (reg : Registry),
      (process_intent req reg).1 = reg :=
  fun _ _ => rfl

/-- Claim C8: context, user_id and session_id never influence the
response: two requests with the same text agree on the whole output. -/
theorem process_intent_noninterference :
    ∀ (t : String) (c₁ c₂ : Option (List (String × String)))
      (u₁ u₂ s₁ s₂ : Option String) (reg : Registry),
      process_intent { text := t, context := c₁, user_id := u₁, session_id := s₁ } reg =
      process_intent { text := t, context := c₂, user_id := u₂, session_id := s₂ } reg :=
  fun _ _ _ _ _ _ _ _ => rfl

/-- Claim C9: with clock readings taken after process start and
non-decreasing across calls, every reported uptime is non-negative and
uptimes are monotonically non-decreasing across successive calls. -/
theorem health_check_uptime_monotone (start t₁ t₂ : ℚ)
    (h₀ : start ≤ t₁) (h₁ : t₁ ≤ t₂) :
    0 ≤ (health_check start t₁).uptime ∧
    (health_check start t₁).uptime ≤ (health_check start t₂).uptime := by
  constructor
  · simpa [health_check] using sub_nonneg.mpr h₀
  · simpa [health_check] using sub_le_sub_right h₁ start

/-- Witness for C9 at concrete clock readings 0, 2, 5. -/
theorem health_check_uptime_monotone_witness :
    (0 : ℚ) ≤ 2 ∧ (2 : ℚ) ≤ 5 ∧
    (0 ≤ (health_check 0 2).uptime ∧
      (health_check 0 2).uptime ≤ (health_check 0 5).uptime) :=
  ⟨by norm_num, by norm_num,
    health_check_uptime_monotone 0 2 5 (by norm_num) (by norm_num)⟩

/-- Claim C10: routing matches capabilities by exact, case-sensitive
string equality: a routed plugin really lists the intent verbatim, and a
plugin declaring "Music_Control" is not returned for "music_control". -/
theorem route_to_plugin_exact_case :
    (∀ (intent : String) (ents : List Entity) (reg : Registry) (pid : String),
      route_to_plugin intent ents reg = some pid →
      ∃ info, (pid, info) ∈ reg ∧ intent ∈ info.capabilities) ∧
    route_to_plugin "music_control" []
      [("P2", { id := "P2", name := "n", version := "1", description := "d",
                capabilities := ["Music_Control"], status := "active" })] =
      none := by
  constructor
  · intro intent ents reg pid hroute
    unfold route_to_plugin at hroute
    rw [Option.map_eq_some'] at hroute
    obtain ⟨⟨k, info⟩, hfind, hfst⟩ := hroute
    have hk : k = pid := hfst
    subst hk
    refine ⟨info, List.mem_of_find?_eq_some hfind, ?_⟩
    simpa using List.find?_some hfind
  · decide

/-- Witness for C10 at a registry actually routing "music_control". -/
theorem route_to_plugin_exact_case_witness :
    route_to_plugin "music_control" [] [("P1", infoEx)] = some "P1" ∧
    ∃ info, ("P1", info) ∈ [("P1", infoEx)] ∧
      "music_control" ∈ info.capabilities :=
  ⟨by decide,
    route_to_plugin_exact_case.1 "music_control" [] [("P1", infoEx)] "P1"
      (by decide)⟩

end Zeeky
